import Mathlib

/-!
Verification of the Neuro-Sync decision-fusion and session-state engine.

Shallow embedding of the Python sources:
  server/models.py        - event kinds, coaching events, session state
  server/gemini_coach.py  - verdict fusion, cooldown gate, analyze cycle
  server/routes.py        - report problem zones
  pi copy/audio.py        - acoustic feature extraction (variance path)

Numeric values are modelled exactly over the rationals; the wall clock
is passed explicitly as a rational parameter wherever the source calls
time.time().  Classifier calls are abstracted as optional parsed
verdicts handed to each cycle, since the external service is out of
scope.  Byte buffers carry no decision-relevant content and are
modelled as presence flags.
-/

namespace NeuroSync

/-! ### Python numeric primitives -/

/-- Python int() applied to a rational: truncation toward zero. -/
def pyInt (q : ℚ) : ℤ :=
  if 0 ≤ q then ⌊q⌋ else -⌊-q⌋

/-- Round a rational to the nearest integer, halves to even, as
Python round() does on exact decimal inputs. -/
def roundHalfEven (q : ℚ) : ℤ :=
  let f := ⌊q⌋
  let r := q - (f : ℚ)
  if r < 1/2 then f
  else if 1/2 < r then f + 1
  else if f % 2 = 0 then f else f + 1

/-- Python round(q, ndigits) over exact rationals. -/
def pyRound (q : ℚ) (ndigits : ℕ) : ℚ :=
  (roundHalfEven (q * (10 : ℚ) ^ ndigits) : ℚ) / (10 : ℚ) ^ ndigits

/-! ### EventType (models.py, class EventType) -/

/-- The seven coaching event kinds of models.py. -/
inductive EventType where
  | GOOD
  | SPEED_UP
  | VIBE_CHECK
  | RAISE_ENERGY
  | VISUAL_RESET
  | HOOK_GOOD
  | HOOK_WEAK
deriving DecidableEq

/-- The string value of each enum member (EventType is a str Enum). -/
def EventType.value : EventType → String
  | .GOOD => "GOOD"
  | .SPEED_UP => "SPEED_UP"
  | .VIBE_CHECK => "VIBE_CHECK"
  | .RAISE_ENERGY => "RAISE_ENERGY"
  | .VISUAL_RESET => "VISUAL_RESET"
  | .HOOK_GOOD => "HOOK_GOOD"
  | .HOOK_WEAK => "HOOK_WEAK"

/-- EventType(string) construction; none models the ValueError raised
on an unrecognized value. -/
def EventType.ofString (s : String) : Option EventType :=
  if s = "GOOD" then some .GOOD
  else if s = "SPEED_UP" then some .SPEED_UP
  else if s = "VIBE_CHECK" then some .VIBE_CHECK
  else if s = "RAISE_ENERGY" then some .RAISE_ENERGY
  else if s = "VISUAL_RESET" then some .VISUAL_RESET
  else if s = "HOOK_GOOD" then some .HOOK_GOOD
  else if s = "HOOK_WEAK" then some .HOOK_WEAK
  else none

/-! ### Raw verdict dictionaries (gemini_coach.py)

A Python dict as produced by _parse_gemini_response and consumed by the
merge functions.  Each field is optional, mirroring dict key presence;
dict.get(key, default) becomes Option.getD. -/

structure RawDict where
  event : Option String := none
  score : Option ℚ := none
  message : Option String := none
  buzz : Option Bool := none
  buzz_pattern : Option String := none
  confidence : Option ℚ := none
  reasoning : Option String := none
deriving DecidableEq

/-! ### CoachingEvent (models.py, class CoachingEvent)

Field defaults mirror the pydantic defaults; timestamp is supplied
explicitly where the source relies on the time.time default factory. -/

structure CoachingEvent where
  event : EventType
  score : ℚ
  message : String
  detail : String := ""
  buzz : Bool := false
  buzz_pattern : String := "single"
  confidence : ℚ := 1
  timestamp : ℚ := 0
  phase : String := "normal"
  reasoning : String := ""
deriving DecidableEq

/-- Left pad of an integer to width 3, as in the Python format d3. -/
def pad3 (n : ℤ) : String :=
  let s := toString n
  if 3 ≤ s.length then s else String.mk (List.replicate (3 - s.length) ' ') ++ s

/-- The 10-character LCD score bar with percent suffix built in
gemini_coach.analyze and models.CoachingEvent.score_bar. -/
def scoreBar (score : ℚ) : String :=
  let filled := (pyInt (score * 10)).toNat
  String.mk (List.replicate filled '█' ++ List.replicate (10 - filled) '░')
    ++ pad3 (pyInt (score * 100)) ++ "%"

/-! ### SessionState (models.py, class SessionState)

The dict last_event_time is modelled as a map into Option; the two
byte buffers are modelled as nonemptiness flags. -/

structure SessionState where
  history : List CoachingEvent := []
  last_event_time : EventType → Option ℚ := fun _ => none
  consecutive_good : ℕ := 0
  consecutive_bad : ℕ := 0
  phase : String := "hook"
  recording_start_time : ℚ := 0
  hook_results : List CoachingEvent := []
  hook_evaluated : Bool := false
  hook_buffer_image : Bool := false
  hook_buffer_audio : Bool := false
  device_id : Option String := none

/-- A fresh session, as built by SessionState.__init__. -/
def SessionState.init : SessionState := {}

/-- COOLDOWN_SECONDS table of models.py. -/
def COOLDOWN_SECONDS : EventType → ℚ
  | .GOOD => 0
  | .SPEED_UP => 8
  | .VIBE_CHECK => 10
  | .RAISE_ENERGY => 10
  | .VISUAL_RESET => 12
  | .HOOK_GOOD => 0
  | .HOOK_WEAK => 0

/-- HOOK_DURATION of models.py. -/
def HOOK_DURATION : ℚ := 3

/-- SessionState.record: append to history, stamp last_event_time for
the event kind at the current time, update the streak counters. -/
def SessionState.record (s : SessionState) (e : CoachingEvent) (now : ℚ) : SessionState :=
  let s1 := { s with
    history := s.history ++ [e],
    last_event_time := fun k => if k = e.event then some now else s.last_event_time k }
  if e.event = EventType.GOOD then
    { s1 with consecutive_good := s1.consecutive_good + 1, consecutive_bad := 0 }
  else
    { s1 with consecutive_bad := s1.consecutive_bad + 1, consecutive_good := 0 }

/-- SessionState.is_on_cooldown; the dict lookup default 0.0 becomes
getD 0, and COOLDOWN_SECONDS.get(kind, 8.0) is total over the enum. -/
def SessionState.is_on_cooldown (s : SessionState) (now : ℚ) (event_type : EventType) : Bool :=
  if event_type = EventType.GOOD then false
  else
    let last := (s.last_event_time event_type).getD 0
    let cooldown := COOLDOWN_SECONDS event_type
    decide (now - last < cooldown)

/-- SessionState.update_phase: lazily transition hook to normal once
HOOK_DURATION seconds have elapsed since the recording started. -/
def SessionState.update_phase (s : SessionState) (now : ℚ) : SessionState :=
  if s.phase = "hook" ∧ 0 < s.recording_start_time then
    if HOOK_DURATION ≤ now - s.recording_start_time then { s with phase := "normal" } else s
  else s

/-! ### Fusion (gemini_coach.py) -/

/-- The priority dict of _merge_results; lookup default is 4. -/
def priority (e : String) : ℕ :=
  if e = "RAISE_ENERGY" then 0
  else if e = "SPEED_UP" then 1
  else if e = "VIBE_CHECK" then 2
  else if e = "VISUAL_RESET" then 3
  else if e = "GOOD" then 4
  else 4

/-- _merge_results: weighted merge of the audio and vision verdicts in
normal phase, with the confident-GOOD audio override. -/
def mergeResults (audio_raw vision_raw : RawDict) : RawDict :=
  let audio_score := audio_raw.score.getD (7/10)
  let vision_score := vision_raw.score.getD (7/10)
  let merged_score := audio_score * (6/10) + vision_score * (4/10)
  let audio_event := audio_raw.event.getD "GOOD"
  let vision_event := vision_raw.event.getD "GOOD"
  let sel :=
    if priority audio_event ≤ priority vision_event then
      (audio_event, audio_raw.message.getD "", audio_raw.buzz.getD false,
        audio_raw.buzz_pattern.getD "single")
    else
      (vision_event, vision_raw.message.getD "", vision_raw.buzz.getD false,
        vision_raw.buzz_pattern.getD "single")
  let sel2 :=
    if audio_event = "GOOD" ∧ 7/10 < audio_raw.confidence.getD 0 then
      ("GOOD", audio_raw.message.getD "LOCKED IN", false, "single",
        max merged_score audio_score)
    else
      (sel.1, sel.2.1, sel.2.2.1, sel.2.2.2, merged_score)
  let reasoning :=
    "Audio: " ++ audio_raw.reasoning.getD "" ++ " | Visual: " ++ vision_raw.reasoning.getD ""
  let confidence := min (audio_raw.confidence.getD 1) (vision_raw.confidence.getD 1)
  { event := some sel2.1,
    score := some (pyRound sel2.2.2.2.2 3),
    message := some (sel2.2.1.take 14),
    buzz := some sel2.2.2.1,
    buzz_pattern := some sel2.2.2.2.1,
    confidence := some confidence,
    reasoning := some reasoning }

/-- _merge_hook_results: hook-phase fusion; a lone verdict is returned
verbatim, both absent yields the fixed hook-eval dict. -/
def mergeHookResults : Option RawDict → Option RawDict → RawDict
  | some audio_raw, some vision_raw =>
    let audio_score := audio_raw.score.getD (7/10)
    let vision_score := vision_raw.score.getD (7/10)
    let merged_score := audio_score * (65/100) + vision_score * (35/100)
    let audio_event := audio_raw.event.getD "HOOK_GOOD"
    let vision_event := vision_raw.event.getD "HOOK_GOOD"
    let event :=
      if audio_event = "HOOK_WEAK" ∧ vision_event = "HOOK_WEAK" then "HOOK_WEAK"
      else if merged_score < 45/100 then "HOOK_WEAK"
      else "HOOK_GOOD"
    let reasoning :=
      "Audio: " ++ audio_raw.reasoning.getD "" ++ " | Visual: " ++ vision_raw.reasoning.getD ""
    let confidence := min (audio_raw.confidence.getD 1) (vision_raw.confidence.getD 1)
    let message0 :=
      if audio_event = "HOOK_WEAK" then audio_raw.message.getD "" else vision_raw.message.getD ""
    let message := if event = "HOOK_GOOD" then audio_raw.message.getD "GREAT HOOK!" else message0
    let buzz := event == "HOOK_WEAK"
    { event := some event,
      score := some (pyRound merged_score 3),
      message := some (message.take 14),
      buzz := some buzz,
      buzz_pattern := some (if buzz then "double" else "single"),
      confidence := some confidence,
      reasoning := some reasoning }
  | some audio_raw, none => audio_raw
  | none, some vision_raw => vision_raw
  | none, none =>
    { event := some "HOOK_GOOD", score := some (65/100), message := some "HOOK EVAL...",
      confidence := some 0, reasoning := some "" }

/-! ### Fallbacks and the cooldown gate (gemini_coach.py) -/

/-- The module-level FALLBACK event (its timestamp is fixed at module
load; modelled as 0). -/
def FALLBACK : CoachingEvent :=
  { event := .GOOD, score := 7/10, message := "CONNECTING...", detail := "",
    buzz := false, buzz_pattern := "single", confidence := 0, timestamp := 0 }

/-- The module-level HOOK_FALLBACK event. -/
def HOOK_FALLBACK : CoachingEvent :=
  { event := .HOOK_GOOD, score := 65/100, message := "HOOK EVAL...", detail := "",
    buzz := false, buzz_pattern := "single", confidence := 0, timestamp := 0,
    phase := "hook", reasoning := "Hook evaluation in progress" }

/-- _apply_cooldown: when the fused kind is on cooldown, rebuild the
event with buzz false.  The source constructor call passes only event,
score, message, detail, buzz, buzz_pattern, confidence and timestamp,
so phase and reasoning take their pydantic defaults. -/
def applyCooldown (event : CoachingEvent) (s : SessionState) (now : ℚ) : CoachingEvent :=
  if s.is_on_cooldown now event.event then
    { event := event.event, score := event.score, message := event.message,
      detail := event.detail, buzz := false, buzz_pattern := "single",
      confidence := event.confidence, timestamp := event.timestamp }
  else event

/-! ### The analyze cycle (gemini_coach.py, analyze and _analyze_hook)

The two classifier calls are abstracted: a cycle input carries the
parsed verdict each call produced, or none when the call failed,
timed out, or returned unparseable output. -/

structure CycleInput where
  now : ℚ
  hasAudio : Bool := false
  audioRaw : Option RawDict := none
  visionRaw : Option RawDict := none
  hookAudioRaw : Option RawDict := none
  hookVisionRaw : Option RawDict := none

/-- The hook-kind forcing applied to each parsed hook verdict in
_analyze_hook: a non-hook kind is replaced according to the score
threshold 0.45.  The parser guarantees event and score keys. -/
def forceHookKind (parsed : RawDict) : RawDict :=
  let ev := parsed.event.getD ""
  if ev = "HOOK_GOOD" ∨ ev = "HOOK_WEAK" then parsed
  else { parsed with
    event := some (if 45/100 ≤ parsed.score.getD 0 then "HOOK_GOOD" else "HOOK_WEAK") }

/-- Building the normal-phase CoachingEvent from a fused dict; none
models the exceptions (missing key, unknown kind) that the caller
catches by returning FALLBACK. -/
def buildNormalEvent (raw : RawDict) (now : ℚ) : Option CoachingEvent :=
  match raw.score, raw.event, raw.message, raw.buzz with
  | some score, some ev, some msg, some buzz =>
    match EventType.ofString ev with
    | some k =>
      some { event := k, score := score, message := msg, detail := scoreBar score,
             buzz := buzz, buzz_pattern := raw.buzz_pattern.getD "single",
             confidence := raw.confidence.getD 1, timestamp := now,
             phase := "normal", reasoning := raw.reasoning.getD "" }
    | none => none
  | _, _, _, _ => none

/-- Building the hook CoachingEvent in _analyze_hook; none models the
exceptions that the caller catches by returning HOOK_FALLBACK. -/
def buildHookEvent (raw : RawDict) (now : ℚ) : Option CoachingEvent :=
  match raw.score, raw.event with
  | some score, some ev =>
    match EventType.ofString ev with
    | some k =>
      some { event := k, score := score, message := (raw.message.getD "").take 14,
             detail := scoreBar score, buzz := raw.buzz.getD false,
             buzz_pattern := raw.buzz_pattern.getD "single",
             confidence := raw.confidence.getD 1, timestamp := now,
             phase := "hook", reasoning := raw.reasoning.getD "" }
    | none => none
  | _, _ => none

/-- The collecting placeholder returned while still in hook phase. -/
def collectingEvent (now : ℚ) : CoachingEvent :=
  { event := .GOOD, score := 1/2, message := "HOOK EVAL...", detail := "Collecting...",
    buzz := false, timestamp := now, phase := "hook",
    reasoning := "Analyzing your opening..." }

/-- _analyze_hook: merge whatever hook verdicts arrived, build the
event, append it to hook_results and record it; fall back when both
verdicts are missing or construction fails. -/
def analyzeHook (s : SessionState) (inp : CycleInput) : CoachingEvent × SessionState :=
  let audio_raw := inp.hookAudioRaw.map forceHookKind
  let vision_raw := inp.hookVisionRaw.map forceHookKind
  if audio_raw = none ∧ vision_raw = none then (HOOK_FALLBACK, s)
  else
    let raw := mergeHookResults audio_raw vision_raw
    match buildHookEvent raw inp.now with
    | none => (HOOK_FALLBACK, s)
    | some ev =>
      (ev, SessionState.record { s with hook_results := s.hook_results ++ [ev] } ev inp.now)

/-- The tail of analyze on the normal path: cooldown gate then record. -/
def finishNormal (s : SessionState) (now : ℚ) (raw : RawDict) : CoachingEvent × SessionState :=
  match buildNormalEvent raw now with
  | none => (FALLBACK, s)
  | some ev0 =>
    let ev := applyCooldown ev0 s now
    (ev, s.record ev now)

/-- The normal-phase body of analyze: merge both verdicts, use a lone
one verbatim, or return FALLBACK when none is usable. -/
def normalPath (s : SessionState) (inp : CycleInput) : CoachingEvent × SessionState :=
  if inp.hasAudio then
    match inp.audioRaw, inp.visionRaw with
    | some a, some v => finishNormal s inp.now (mergeResults a v)
    | some a, none => finishNormal s inp.now a
    | none, some v => finishNormal s inp.now v
    | none, none => (FALLBACK, s)
  else
    match inp.visionRaw with
    | some v => finishNormal s inp.now v
    | none => (FALLBACK, s)

/-- analyze: phase update, hook buffering, the once-only hook
evaluation at the hook-to-normal transition, then the normal path. -/
def analyzeStep (s0 : SessionState) (inp : CycleInput) : CoachingEvent × SessionState :=
  let prev_phase := s0.phase
  let s := s0.update_phase inp.now
  if s.phase = "hook" then
    (collectingEvent inp.now,
      { s with hook_buffer_image := true,
               hook_buffer_audio := if inp.hasAudio then true else s.hook_buffer_audio })
  else if prev_phase = "hook" ∧ s.hook_evaluated = false then
    let s1 := { s with hook_evaluated := true }
    let out := analyzeHook s1 inp
    (out.1, { out.2 with hook_buffer_image := false, hook_buffer_audio := false })
  else
    normalPath s inp

/-- One full request cycle (routes.analyze_frame): stamp the recording
start time on the first call, then run analyze. -/
def cycleStep (s : SessionState) (inp : CycleInput) : CoachingEvent × SessionState :=
  let s1 := if s.recording_start_time = 0 then { s with recording_start_time := inp.now } else s
  analyzeStep s1 inp

/-- Whether a cycle executes the hook evaluation branch of analyze. -/
def cycleRanHookEval (s : SessionState) (inp : CycleInput) : Bool :=
  let s1 := if s.recording_start_time = 0 then { s with recording_start_time := inp.now } else s
  let s2 := s1.update_phase inp.now
  !(s2.phase == "hook") && (s1.phase == "hook") && !s1.hook_evaluated

/-- Number of cycles of a run whose step changes the session phase. -/
def phaseChanges (s : SessionState) : List CycleInput → ℕ
  | [] => 0
  | inp :: rest =>
    (if (cycleStep s inp).2.phase ≠ s.phase then 1 else 0) + phaseChanges (cycleStep s inp).2 rest

/-- Number of cycles of a run that execute the hook evaluation. -/
def hookEvalCount (s : SessionState) : List CycleInput → ℕ
  | [] => 0
  | inp :: rest =>
    (if cycleRanHookEval s inp then 1 else 0) + hookEvalCount (cycleStep s inp).2 rest

/-! ### Acoustic features (pi copy/audio.py) -/

/-- The Pi sound-sensor sampling rate (readings per second). -/
def SAMPLE_RATE_HZ : ℕ := 50

/-- _compute_variance: statistics.variance of the window (sample
variance with denominator n - 1), 0 when fewer than two samples. -/
def compute_variance (samples : List ℚ) : ℚ :=
  if samples.length < 2 then 0
  else
    let n : ℚ := samples.length
    let mean := samples.sum / n
    ((samples.map fun s => (s - mean) ^ 2).sum) / (n - 1)

/-- The volume_variance field of get_audio_metrics:
round(_compute_variance(samples), 6). -/
def get_audio_metrics_volume_variance (samples : List ℚ) : ℚ :=
  pyRound (compute_variance samples) 6

/-- Modelled from the spec: the number of complete roughly-100ms
sub-chunks of the window at the configured 50 Hz sampling rate, so 5
samples per chunk.  The spec (section 4.1) defines volume_variance as
the variance of per-chunk RMS values over these sub-chunks and demands
the value 0 whenever fewer than two chunks exist.  No sub-chunking
exists in pi copy/audio.py; this definition renders the chunk count
the spec speaks about for comparison. -/
def spec_chunk_count (samples : List ℚ) : ℕ :=
  samples.length / (SAMPLE_RATE_HZ / 10)

/-! ### Report problem zones (routes.py, session_report) -/

/-- One entry of the problem_zones list built by session_report. -/
structure ProblemZone where
  start_frame : ℕ
  end_frame : ℕ
  length : ℕ
  avg_score : ℚ
  events : List String
deriving DecidableEq

/-- The zone dict appended by session_report for the low run starting
at zone_start and closed at index i (frames are 1-based). -/
def mkZone (h : List CoachingEvent) (zone_start i : ℕ) : ProblemZone :=
  let slice := (h.drop zone_start).take (i - zone_start)
  { start_frame := zone_start + 1,
    end_frame := i,
    length := i - zone_start,
    avg_score := pyRound ((slice.map fun e => e.score).sum / ((i - zone_start : ℕ) : ℚ)) 3,
    events := slice.map fun e => e.event.value }

/-- The problem-zone scan of session_report: the loop over the history
with its running zone_start, plus the trailing-zone epilogue. -/
def problemZonesLoop (h : List CoachingEvent) :
    List CoachingEvent → ℕ → Option ℕ → List ProblemZone → List ProblemZone
  | [], i, zone_start, acc =>
    match zone_start with
    | some zs => if 2 ≤ i - zs then acc ++ [mkZone h zs i] else acc
    | none => acc
  | e :: rest, i, zone_start, acc =>
    if e.score < 3/5 then
      problemZonesLoop h rest (i + 1) (some (zone_start.getD i)) acc
    else
      match zone_start with
      | some zs =>
        if 2 ≤ i - zs then problemZonesLoop h rest (i + 1) none (acc ++ [mkZone h zs i])
        else problemZonesLoop h rest (i + 1) none acc
      | none => problemZonesLoop h rest (i + 1) none acc

/-- problem_zones of a session history (LOW_THRESHOLD is 0.60). -/
def problem_zones (h : List CoachingEvent) : List ProblemZone :=
  problemZonesLoop h h 0 none []

/-- Whether the event at index j exists and has score below 0.60. -/
def lowAt (h : List CoachingEvent) (j : ℕ) : Bool :=
  match h[j]? with
  | some ev => decide (ev.score < 3/5)
  | none => false

/-- The indices s..e form a maximal contiguous run of events with
score below 0.60: every member is low, the element before s (when s
is not 0) is not low, and the element after e (when it exists) is not
low.  This is the property the spec states for problem zones. -/
def IsMaxLowRun (h : List CoachingEvent) (s e : ℕ) : Prop :=
  s ≤ e ∧ e < h.length ∧ (∀ j, s ≤ j → j ≤ e → lowAt h j = true) ∧
    (s = 0 ∨ lowAt h (s - 1) = false) ∧ lowAt h (e + 1) = false

/-- Loop invariant for the zone_start register of the scan. -/
def ZsInv (h : List CoachingEvent) (i : ℕ) : Option ℕ → Prop
  | none => i = 0 ∨ lowAt h (i - 1) = false
  | some s => s < i ∧ (∀ j, s ≤ j → j < i → lowAt h j = true) ∧ (s = 0 ∨ lowAt h (s - 1) = false)

/-- Lower bound on the start of zones still to be emitted. -/
def zsBound (i : ℕ) : Option ℕ → ℕ
  | none => i
  | some s => s

/-! ### Concrete inputs used by witnesses and counterexamples -/

/-- Audio verdict of the C1 spec example: RAISE_ENERGY at score 0.3
with confidence 0.7 (not above the override threshold). -/
def c1Audio : RawDict :=
  { event := some "RAISE_ENERGY", score := some (3/10), message := some "MORE ENERGY",
    buzz := some true, buzz_pattern := some "long", confidence := some (7/10),
    reasoning := some "flat tone" }

/-- Vision verdict of the C1 spec example: GOOD at score 0.8. -/
def c1Vision : RawDict :=
  { event := some "GOOD", score := some (8/10), message := some "LOOKING GOOD",
    buzz := some false, buzz_pattern := some "single", confidence := some (9/10),
    reasoning := some "engaged" }

/-- A confident GOOD audio verdict (confidence 0.9, score 0.9). -/
def cexAudioGood : RawDict :=
  { event := some "GOOD", score := some (9/10), message := some "LOCKED IN",
    buzz := some false, buzz_pattern := some "single", confidence := some (9/10),
    reasoning := some "great energy" }

/-- A VIBE_CHECK vision verdict at score 0.1. -/
def cexVisionVibe : RawDict :=
  { event := some "VIBE_CHECK", score := some (1/10), message := some "SMILE MORE",
    buzz := some true, buzz_pattern := some "double", confidence := some (8/10),
    reasoning := some "flat face" }

/-- Hook audio verdict HOOK_WEAK at score 0.5. -/
def c2Audio : RawDict :=
  { event := some "HOOK_WEAK", score := some (1/2), message := some "WEAK START",
    buzz := some true, buzz_pattern := some "double", confidence := some (8/10),
    reasoning := some "mumbling" }

/-- Hook vision verdict HOOK_GOOD at score 0.5, giving merged 0.50. -/
def c2Vision : RawDict :=
  { event := some "HOOK_GOOD", score := some (1/2), message := some "NICE FRAME",
    buzz := some false, buzz_pattern := some "single", confidence := some (7/10),
    reasoning := some "visible" }

/-- A fused SPEED_UP event with a triple buzz pattern and nonempty
reasoning, used at the cooldown gate. -/
def c4Event : CoachingEvent :=
  { event := .SPEED_UP, score := 45/100, message := "PICK UP PACE",
    detail := "dip", buzz := true, buzz_pattern := "triple", confidence := 8/10,
    timestamp := 100, phase := "normal", reasoning := "long pauses" }

/-- A normal-phase session that fired SPEED_UP at time 95. -/
def c4Session : SessionState :=
  { SessionState.init with
    phase := "normal", recording_start_time := 1,
    last_event_time := fun k => if k = EventType.SPEED_UP then some 95 else none }

/-- A five-sample (100 ms at 50 Hz) alternating window. -/
def c5Window : List ℚ := [0, 1, 0, 1, 0]

/-- Shorthand for a history event with a given kind and score. -/
def mkEv (k : EventType) (q : ℚ) : CoachingEvent :=
  { event := k, score := q, message := "" }

/-- The C3 spec example timeline of ten scores. -/
def c3History : List CoachingEvent :=
  [mkEv .GOOD (9/10), mkEv .GOOD (9/10), mkEv .VIBE_CHECK (1/2), mkEv .RAISE_ENERGY (4/10),
   mkEv .SPEED_UP (3/10), mkEv .GOOD (9/10), mkEv .VISUAL_RESET (2/10), mkEv .VIBE_CHECK (1/10),
   mkEv .GOOD (9/10), mkEv .GOOD (9/10)]

/-- A timeline with a single isolated low score. -/
def c3Isolated : List CoachingEvent :=
  [mkEv .GOOD (9/10), mkEv .RAISE_ENERGY (3/10), mkEv .GOOD (9/10)]

/-- A fresh session whose recording started at time 1. -/
def c7Session : SessionState := { SessionState.init with recording_start_time := 1 }

/-- A bare cycle input at time 10 with no usable verdicts. -/
def c7Input : CycleInput := { now := 10 }

/-- A normal-phase session for the fallback cycle. -/
def c9Session : SessionState :=
  { SessionState.init with phase := "normal", recording_start_time := 1 }

/-- A normal-phase cycle whose both classifier calls failed. -/
def c9Input : CycleInput := { now := 20, hasAudio := true }

/-- A GOOD coaching event. -/
def c10Good : CoachingEvent := { event := .GOOD, score := 85/100, message := "LOCKED IN" }

/-- A non-GOOD coaching event. -/
def c10Bad : CoachingEvent := { event := .SPEED_UP, score := 4/10, message := "SPEED UP" }

/-! ### Helper lemmas -/

/-- Folding record over a run of GOOD events adds its length to the
good streak and leaves the bad streak at zero (unless the run is
empty). -/
theorem record_good_run (l : List (CoachingEvent × ℚ)) :
    ∀ s : SessionState, (∀ p ∈ l, p.1.event = EventType.GOOD) →
      (l.foldl (fun t p => t.record p.1 p.2) s).consecutive_good =
        s.consecutive_good + l.length ∧
      (l.foldl (fun t p => t.record p.1 p.2) s).consecutive_bad =
        (if l = [] then s.consecutive_bad else 0) := by
  induction l with
  | nil => intro s _; simp
  | cons p rest ih =>
    intro s hall
    have hp : p.1.event = EventType.GOOD := hall p (List.mem_cons_self _ _)
    have hrest : ∀ q ∈ rest, q.1.event = EventType.GOOD :=
      fun q hq => hall q (List.mem_cons_of_mem _ hq)
    have hrec : (s.record p.1 p.2).consecutive_good = s.consecutive_good + 1 ∧
        (s.record p.1 p.2).consecutive_bad = 0 := by
      simp [SessionState.record, hp]
    obtain ⟨hg, hb⟩ := ih (s.record p.1 p.2) hrest
    constructor
    · rw [List.foldl_cons, hg, hrec.1, List.length_cons]
      omega
    · rw [List.foldl_cons, hb, hrec.2]
      by_cases hr : rest = [] <;> simp [hr]

/-! ### Claim theorems -/

/-- C8: is_on_cooldown returns false for GOOD in every session state;
for every other kind it returns true exactly when the elapsed time
since the kind was last fired (epoch 0 when never fired) is below its
configured duration; the configured durations are SPEED_UP 8 s,
VIBE_CHECK 10 s, RAISE_ENERGY 10 s, VISUAL_RESET 12 s, HOOK_GOOD 0 s
and HOOK_WEAK 0 s; and a kind that has never fired is not on cooldown
once the current time is at least the largest duration, 12 s. -/
theorem C8_is_on_cooldown (s : SessionState) (now : ℚ) (k : EventType) :
    s.is_on_cooldown now EventType.GOOD = false ∧
    (k ≠ EventType.GOOD →
      (s.is_on_cooldown now k = true ↔
        now - (s.last_event_time k).getD 0 < COOLDOWN_SECONDS k)) ∧
    COOLDOWN_SECONDS .SPEED_UP = 8 ∧ COOLDOWN_SECONDS .VIBE_CHECK = 10 ∧
    COOLDOWN_SECONDS .RAISE_ENERGY = 10 ∧ COOLDOWN_SECONDS .VISUAL_RESET = 12 ∧
    COOLDOWN_SECONDS .HOOK_GOOD = 0 ∧ COOLDOWN_SECONDS .HOOK_WEAK = 0 ∧
    (k ≠ EventType.GOOD → s.last_event_time k = none → 12 ≤ now →
      s.is_on_cooldown now k = false) := by
  refine ⟨by simp [SessionState.is_on_cooldown], ?_, rfl, rfl, rfl, rfl, rfl, rfl, ?_⟩
  · intro hk
    simp [SessionState.is_on_cooldown, hk]
  · intro hk hnone hnow
    simp only [SessionState.is_on_cooldown, if_neg hk, hnone, Option.getD_none,
      decide_eq_false_iff_not, not_lt]
    have : COOLDOWN_SECONDS k ≤ 12 := by cases k <;> norm_num [COOLDOWN_SECONDS]
    linarith

/-- C8 witness: the generic statement evaluated on the concrete
session c4Session at time 100 for kind VIBE_CHECK. -/
theorem C8_witness :
    c4Session.is_on_cooldown 100 EventType.GOOD = false ∧
    (c4Session.is_on_cooldown 100 EventType.VIBE_CHECK = true ↔
      100 - (c4Session.last_event_time EventType.VIBE_CHECK).getD 0 <
        COOLDOWN_SECONDS EventType.VIBE_CHECK) ∧
    c4Session.is_on_cooldown 100 EventType.VIBE_CHECK = false := by
  obtain ⟨h1, h2, -, -, -, -, -, -, h9⟩ :=
    C8_is_on_cooldown c4Session 100 EventType.VIBE_CHECK
  exact ⟨h1, h2 (by decide), h9 (by decide) (by decide) (by norm_num)⟩

/-- C10: recording N consecutive GOOD events into a fresh session
leaves consecutive_good at N and consecutive_bad at 0; recording any
non-GOOD event resets consecutive_good to 0 and increments
consecutive_bad; and every record appends the event to the history and
stamps the last-fired time of its kind. -/
theorem C10_record (l : List (CoachingEvent × ℚ)) (s : SessionState)
    (e : CoachingEvent) (now : ℚ) :
    ((∀ p ∈ l, p.1.event = EventType.GOOD) →
      (l.foldl (fun t p => t.record p.1 p.2) SessionState.init).consecutive_good = l.length ∧
      (l.foldl (fun t p => t.record p.1 p.2) SessionState.init).consecutive_bad = 0) ∧
    (e.event ≠ EventType.GOOD →
      (s.record e now).consecutive_good = 0 ∧
      (s.record e now).consecutive_bad = s.consecutive_bad + 1) ∧
    (s.record e now).history = s.history ++ [e] ∧
    (s.record e now).last_event_time e.event = some now := by
  refine ⟨?_, ?_, ?_, ?_⟩
  · intro hall
    obtain ⟨hg, hb⟩ := record_good_run l SessionState.init hall
    refine ⟨by simpa [SessionState.init] using hg, ?_⟩
    rw [hb]; by_cases h : l = [] <;> simp [h, SessionState.init]
  · intro he
    simp [SessionState.record, he]
  · unfold SessionState.record
    split <;> simp
  · unfold SessionState.record
    split <;> simp

/-- C10 witness: two GOOD records then one SPEED_UP record, on
concrete events and times. -/
theorem C10_witness :
    (([(c10Good, (1 : ℚ)), (c10Good, 2)].foldl
        (fun t p => t.record p.1 p.2) SessionState.init).consecutive_good = 2 ∧
      ([(c10Good, (1 : ℚ)), (c10Good, 2)].foldl
        (fun t p => t.record p.1 p.2) SessionState.init).consecutive_bad = 0) ∧
    ((c9Session.record c10Bad 3).consecutive_good = 0 ∧
      (c9Session.record c10Bad 3).consecutive_bad = c9Session.consecutive_bad + 1) ∧
    (c9Session.record c10Bad 3).history = c9Session.history ++ [c10Bad] ∧
    (c9Session.record c10Bad 3).last_event_time c10Bad.event = some 3 := by
  obtain ⟨h1, h2, h3, h4⟩ := C10_record [(c10Good, 1), (c10Good, 2)] c9Session c10Bad 3
  exact ⟨h1 (by decide), h2 (by decide), h3, h4⟩

/-- C4 counterexample: an event whose kind is on cooldown is re-emitted
with buzz_pattern reset to single and reasoning cleared, so the fields
other than buzz are not all unchanged as the claim states. -/
theorem C4_counterexample :
    c4Session.is_on_cooldown 100 c4Event.event = true ∧
    (applyCooldown c4Event c4Session 100).buzz_pattern = "single" ∧
    c4Event.buzz_pattern = "triple" ∧
    (applyCooldown c4Event c4Session 100).reasoning = "" ∧
    c4Event.reasoning = "long pauses" := by
  have hcool : c4Session.is_on_cooldown 100 c4Event.event = true := by
    simp only [SessionState.is_on_cooldown, c4Session, c4Event, SessionState.init,
      COOLDOWN_SECONDS]
    norm_num
    all_goals decide
  refine ⟨hcool, ?_, rfl, ?_, rfl⟩ <;> simp [applyCooldown, hcool]

/-- C4 amended: when the fused kind is on cooldown the gate re-emits
the event with buzz forced false; kind, score, message, detail,
confidence and timestamp are copied unchanged, while buzz_pattern is
reset to single and the omitted phase and reasoning fields fall back
to their defaults (normal and the empty string). -/
theorem C4_cooldown_amended (e : CoachingEvent) (s : SessionState) (now : ℚ)
    (h : s.is_on_cooldown now e.event = true) :
    applyCooldown e s now =
      { event := e.event, score := e.score, message := e.message, detail := e.detail,
        buzz := false, buzz_pattern := "single", confidence := e.confidence,
        timestamp := e.timestamp, phase := "normal", reasoning := "" } := by
  simp [applyCooldown, h]

/-- C4 witness: the amended statement evaluated on the concrete
SPEED_UP event and session. -/
theorem C4_witness :
    applyCooldown c4Event c4Session 100 =
      { event := c4Event.event, score := c4Event.score, message := c4Event.message,
        detail := c4Event.detail, buzz := false, buzz_pattern := "single",
        confidence := c4Event.confidence, timestamp := c4Event.timestamp,
        phase := "normal", reasoning := "" } :=
  C4_cooldown_amended c4Event c4Session 100 (by
    simp only [SessionState.is_on_cooldown, c4Session, c4Event, SessionState.init,
      COOLDOWN_SECONDS]
    norm_num
    all_goals decide)

/-- C9: in a normal-phase cycle in which both classifier calls failed
or produced unparseable output, analyze returns the fixed neutral
FALLBACK event (GOOD, score 0.70, message CONNECTING..., no buzz) and
leaves the session state untouched: nothing is appended to the
history and no cooldown or streak counter changes. -/
theorem C9_fallback (s : SessionState) (inp : CycleInput)
    (hphase : s.phase = "normal") (haud : inp.hasAudio = true)
    (ha : inp.audioRaw = none) (hv : inp.visionRaw = none) :
    analyzeStep s inp = (FALLBACK, s) ∧
    FALLBACK.event = EventType.GOOD ∧ FALLBACK.score = 7/10 ∧
    FALLBACK.message = "CONNECTING..." ∧ FALLBACK.buzz = false := by
  have hup : s.update_phase inp.now = s := by
    unfold SessionState.update_phase
    rw [if_neg (by simp [hphase])]
  refine ⟨?_, rfl, rfl, rfl, rfl⟩
  unfold analyzeStep
  simp [hup, hphase, normalPath, haud, ha, hv]

/-- C9 witness: the fallback cycle on the concrete normal-phase
session c9Session. -/
theorem C9_witness :
    analyzeStep c9Session c9Input = (FALLBACK, c9Session) ∧
    FALLBACK.event = EventType.GOOD ∧ FALLBACK.score = 7/10 ∧
    FALLBACK.message = "CONNECTING..." ∧ FALLBACK.buzz = false :=
  C9_fallback c9Session c9Input rfl rfl rfl rfl

/-- C1 fails as stated: with a confidently GOOD audio verdict the
override ignores the more urgent vision kind and raises the score, so
neither the weighted-sum score nor the urgency selection holds. -/
theorem C1_counterexample :
    priority "VIBE_CHECK" < priority "GOOD" ∧
    (mergeResults cexAudioGood cexVisionVibe).event ≠ some "VIBE_CHECK" ∧
    (mergeResults cexAudioGood cexVisionVibe).score ≠
      some (pyRound ((9/10) * (6/10) + (1/10) * (4/10)) 3) ∧
    (mergeResults cexAudioGood cexVisionVibe).event = some "GOOD" ∧
    (mergeResults cexAudioGood cexVisionVibe).score = some (9/10) := by
  have hev : (mergeResults cexAudioGood cexVisionVibe).event = some "GOOD" := by
    norm_num [mergeResults, cexAudioGood, cexVisionVibe, priority]
  have hsc : (mergeResults cexAudioGood cexVisionVibe).score = some (9/10) := by
    norm_num [mergeResults, cexAudioGood, cexVisionVibe, priority, max_def,
      pyRound, roundHalfEven]
  refine ⟨by decide, ?_, ?_, hev, hsc⟩
  · rw [hev]; simp
  · rw [hsc]
    have : pyRound ((9/10) * (6/10) + (1/10) * (4/10)) 3 = 58/100 := by
      norm_num [pyRound, roundHalfEven]
    rw [this]; simp; norm_num

/-- C1 amended: with both verdicts present and the confident-GOOD
audio override not applicable, the merged score is 0.6 audio plus 0.4
vision rounded to three decimals, and kind, message, buzz and
buzz_pattern come from whichever verdict kind is more urgent under
RAISE_ENERGY, SPEED_UP, VIBE_CHECK, VISUAL_RESET, GOOD (ties favor
audio); when the override applies the result is GOOD with score at
least the audio score (claim C6).  In particular audio RAISE_ENERGY
0.3 with confidence 0.7 and vision GOOD 0.8 merge to score 0.50 and
kind RAISE_ENERGY. -/
theorem C1_merge_results_amended (a v : RawDict)
    (h : ¬(a.event.getD "GOOD" = "GOOD" ∧ 7/10 < a.confidence.getD 0)) :
    (mergeResults a v).score =
      some (pyRound (a.score.getD (7/10) * (6/10) + v.score.getD (7/10) * (4/10)) 3) ∧
    (priority (a.event.getD "GOOD") ≤ priority (v.event.getD "GOOD") →
      (mergeResults a v).event = some (a.event.getD "GOOD") ∧
      (mergeResults a v).message = some ((a.message.getD "").take 14) ∧
      (mergeResults a v).buzz = some (a.buzz.getD false) ∧
      (mergeResults a v).buzz_pattern = some (a.buzz_pattern.getD "single")) ∧
    (¬priority (a.event.getD "GOOD") ≤ priority (v.event.getD "GOOD") →
      (mergeResults a v).event = some (v.event.getD "GOOD") ∧
      (mergeResults a v).message = some ((v.message.getD "").take 14) ∧
      (mergeResults a v).buzz = some (v.buzz.getD false) ∧
      (mergeResults a v).buzz_pattern = some (v.buzz_pattern.getD "single")) ∧
    (mergeResults c1Audio c1Vision).score = some (1/2) ∧
    (mergeResults c1Audio c1Vision).event = some "RAISE_ENERGY" := by
  refine ⟨?_, ?_, ?_, ?_, ?_⟩
  · simp only [mergeResults, if_neg h]
  · intro hp
    simp only [mergeResults, if_neg h, if_pos hp]
    exact ⟨trivial, trivial, trivial, trivial⟩
  · intro hp
    simp only [mergeResults, if_neg h, if_neg hp]
    exact ⟨trivial, trivial, trivial, trivial⟩
  · norm_num [mergeResults, c1Audio, c1Vision, priority, pyRound, roundHalfEven]
  · norm_num [mergeResults, c1Audio, c1Vision, priority]

/-- C1 witness: the amended statement instantiated at the spec example
verdicts c1Audio and c1Vision. -/
theorem C1_witness :
    (mergeResults c1Audio c1Vision).score =
      some (pyRound (c1Audio.score.getD (7/10) * (6/10) +
        c1Vision.score.getD (7/10) * (4/10)) 3) ∧
    (mergeResults c1Audio c1Vision).event = some (c1Audio.event.getD "GOOD") ∧
    (mergeResults c1Audio c1Vision).score = some (1/2) ∧
    (mergeResults c1Audio c1Vision).event = some "RAISE_ENERGY" := by
  obtain ⟨hs, himp, -, hex1, hex2⟩ :=
    C1_merge_results_amended c1Audio c1Vision (by simp [c1Audio])
  exact ⟨hs, (himp (by simp [c1Audio, c1Vision, priority])).1, hex1, hex2⟩

/-- C2: hook fusion with both verdicts present uses weights 0.65 audio
and 0.35 vision (rounded to three decimals), and the result kind is
HOOK_WEAK exactly when both verdicts say HOOK_WEAK or the merged score
is below 0.45, and HOOK_GOOD otherwise; in particular audio HOOK_WEAK
and vision HOOK_GOOD at merged score 0.50 give HOOK_GOOD. -/
theorem C2_merge_hook_results (a v : RawDict) :
    (mergeHookResults (some a) (some v)).score =
      some (pyRound (a.score.getD (7/10) * (65/100) + v.score.getD (7/10) * (35/100)) 3) ∧
    ((mergeHookResults (some a) (some v)).event = some "HOOK_WEAK" ↔
      ((a.event.getD "HOOK_GOOD" = "HOOK_WEAK" ∧ v.event.getD "HOOK_GOOD" = "HOOK_WEAK") ∨
        a.score.getD (7/10) * (65/100) + v.score.getD (7/10) * (35/100) < 45/100)) ∧
    ((mergeHookResults (some a) (some v)).event = some "HOOK_WEAK" ∨
      (mergeHookResults (some a) (some v)).event = some "HOOK_GOOD") ∧
    (mergeHookResults (some c2Audio) (some c2Vision)).event = some "HOOK_GOOD" ∧
    (mergeHookResults (some c2Audio) (some c2Vision)).score = some (1/2) := by
  refine ⟨rfl, ?_, ?_, ?_, ?_⟩
  · simp only [mergeHookResults]
    split_ifs with h1 h2
    · simp [h1]
    · simp [h2]
    · simp [h1, h2]
  · simp only [mergeHookResults]
    split_ifs
    · exact Or.inl rfl
    · exact Or.inl rfl
    · exact Or.inr rfl
  · norm_num [mergeHookResults, c2Audio, c2Vision]
    decide
  · norm_num [mergeHookResults, c2Audio, c2Vision, pyRound, roundHalfEven]

/-- C6: in normal-phase fusion with both verdicts present, an audio
verdict of kind GOOD with confidence above 0.7 forces the result kind
to GOOD regardless of the vision verdict, and the merged score (before
the final three-decimal rounding) is at least the audio score; in
particular audio GOOD at confidence 0.9 with vision VIBE_CHECK gives
kind GOOD. -/
theorem C6_good_override (a v : RawDict)
    (h1 : a.event = some "GOOD") (h2 : 7/10 < a.confidence.getD 0) :
    (mergeResults a v).event = some "GOOD" ∧
    (∃ m, a.score.getD (7/10) ≤ m ∧ (mergeResults a v).score = some (pyRound m 3)) ∧
    (mergeResults cexAudioGood cexVisionVibe).event = some "GOOD" := by
  have hev : a.event.getD "GOOD" = "GOOD" := by rw [h1]; rfl
  have hcond : a.event.getD "GOOD" = "GOOD" ∧ 7/10 < a.confidence.getD 0 := ⟨hev, h2⟩
  refine ⟨?_,
    ⟨max (a.score.getD (7/10) * (6/10) + v.score.getD (7/10) * (4/10)) (a.score.getD (7/10)),
      le_max_right _ _, ?_⟩, ?_⟩
  · simp only [mergeResults, if_pos hcond]
  · simp only [mergeResults, if_pos hcond]
  · norm_num [mergeResults, cexAudioGood, cexVisionVibe, priority]

/-- C6 witness: the override instantiated at the concrete confident
GOOD audio verdict against a VIBE_CHECK vision verdict. -/
theorem C6_witness :
    (mergeResults cexAudioGood cexVisionVibe).event = some "GOOD" ∧
    (∃ m, cexAudioGood.score.getD (7/10) ≤ m ∧
      (mergeResults cexAudioGood cexVisionVibe).score = some (pyRound m 3)) := by
  obtain ⟨he, hm, -⟩ := C6_good_override cexAudioGood cexVisionVibe rfl
    (by norm_num [cexAudioGood])
  exact ⟨he, hm⟩

/-- C5 fails as stated: a five-sample window is a single 100 ms chunk,
for which the claim demands variance 0, yet the code returns the raw
sample variance 0.3. -/
theorem C5_counterexample :
    spec_chunk_count c5Window = 1 ∧
    get_audio_metrics_volume_variance c5Window = 3/10 ∧
    (3/10 : ℚ) ≠ 0 := by
  refine ⟨by simp [spec_chunk_count, c5Window, SAMPLE_RATE_HZ], ?_, by norm_num⟩
  norm_num [get_audio_metrics_volume_variance, compute_variance, c5Window,
    pyRound, roundHalfEven]

/-- Expanding a sum of squared deviations about a constant. -/
theorem sum_sq_shift (l : List ℚ) (c : ℚ) :
    (l.map fun s => (s - c) ^ 2).sum =
      (l.map fun s => s ^ 2).sum - 2 * c * l.sum + l.length * c ^ 2 := by
  induction l with
  | nil => simp
  | cons x xs ih =>
    simp only [List.map_cons, List.sum_cons, List.length_cons, ih]
    push_cast
    ring

/-- C5 amended: volume_variance equals the sample variance (with
denominator n minus 1) of the raw normalized samples over the whole
window, rounded to six decimals, and is 0 when the window holds fewer
than two samples; there is no 100 ms sub-chunking in the Pi audio
pipeline. -/
theorem C5_variance_amended (samples : List ℚ) :
    (samples.length < 2 → get_audio_metrics_volume_variance samples = 0) ∧
    (2 ≤ samples.length →
      get_audio_metrics_volume_variance samples =
        pyRound (((samples.map fun s => s ^ 2).sum -
          samples.length * (samples.sum / samples.length) ^ 2) /
          ((samples.length : ℚ) - 1)) 6) := by
  constructor
  · intro h
    have h0 : compute_variance samples = 0 := by simp [compute_variance, h]
    simp only [get_audio_metrics_volume_variance, h0]
    norm_num [pyRound, roundHalfEven]
  · intro h
    have hn : (samples.length : ℚ) ≠ 0 := by
      have : 0 < samples.length := by omega
      exact_mod_cast this.ne'
    simp only [get_audio_metrics_volume_variance]
    congr 1
    simp only [compute_variance, if_neg (by omega : ¬samples.length < 2)]
    rw [sum_sq_shift]
    congr 1
    have key : (samples.length : ℚ) * (samples.sum / samples.length) = samples.sum := by
      field_simp
    linear_combination (2 * (samples.sum / (samples.length : ℚ))) * key

/-- Recording leaves the phase field untouched. -/
theorem record_phase (s : SessionState) (e : CoachingEvent) (now : ℚ) :
    (s.record e now).phase = s.phase := by
  unfold SessionState.record
  split <;> rfl

/-- update_phase either leaves the state alone or moves a hook-phase
state to normal. -/
theorem update_phase_cases (s : SessionState) (now : ℚ) :
    s.update_phase now = s ∨ (s.phase = "hook" ∧ (s.update_phase now).phase = "normal") := by
  unfold SessionState.update_phase
  split_ifs with h1 h2
  · exact Or.inr ⟨h1.1, rfl⟩
  · exact Or.inl rfl
  · exact Or.inl rfl

/-- update_phase is the identity on a normal-phase state. -/
theorem update_phase_normal (s : SessionState) (now : ℚ) (h : s.phase = "normal") :
    s.update_phase now = s := by
  unfold SessionState.update_phase
  rw [if_neg (by simp [h])]

/-- The hook analysis does not change the session phase. -/
theorem analyzeHook_phase (s : SessionState) (inp : CycleInput) :
    (analyzeHook s inp).2.phase = s.phase := by
  simp only [analyzeHook]
  split_ifs with h
  · rfl
  · cases hb : buildHookEvent
      (mergeHookResults (inp.hookAudioRaw.map forceHookKind)
        (inp.hookVisionRaw.map forceHookKind)) inp.now with
    | none => simp [hb]
    | some ev => simp [hb, record_phase]

/-- The normal-path epilogue does not change the session phase. -/
theorem finishNormal_phase (s : SessionState) (now : ℚ) (raw : RawDict) :
    (finishNormal s now raw).2.phase = s.phase := by
  unfold finishNormal
  cases hb : buildNormalEvent raw now with
  | none => simp [hb]
  | some ev0 => simp [hb, record_phase]

/-- The normal path does not change the session phase. -/
theorem normalPath_phase (s : SessionState) (inp : CycleInput) :
    (normalPath s inp).2.phase = s.phase := by
  unfold normalPath
  split_ifs with h
  · rcases h1 : inp.audioRaw with _ | a <;> rcases h2 : inp.visionRaw with _ | v <;>
      simp [h1, h2, finishNormal_phase]
  · rcases h2 : inp.visionRaw with _ | v <;> simp [h2, finishNormal_phase]

/-- analyze only changes the phase through update_phase. -/
theorem analyzeStep_phase (s : SessionState) (inp : CycleInput) :
    (analyzeStep s inp).2.phase = (s.update_phase inp.now).phase := by
  simp only [analyzeStep]
  by_cases h1 : (s.update_phase inp.now).phase = "hook"
  · rw [if_pos h1]
  · rw [if_neg h1]
    by_cases h2 : s.phase = "hook" ∧ (s.update_phase inp.now).hook_evaluated = false
    · rw [if_pos h2]
      simp [analyzeHook_phase]
    · rw [if_neg h2]
      exact normalPath_phase _ _

/-- A cycle either keeps the phase or moves hook to normal. -/
theorem cycleStep_phase_cases (s : SessionState) (inp : CycleInput) :
    (cycleStep s inp).2.phase = s.phase ∨
      (s.phase = "hook" ∧ (cycleStep s inp).2.phase = "normal") := by
  simp only [cycleStep]
  split_ifs with h
  · rw [analyzeStep_phase]
    rcases update_phase_cases { s with recording_start_time := inp.now } inp.now with
      h1 | ⟨h1, h2⟩
    · rw [h1]; exact Or.inl rfl
    · exact Or.inr ⟨h1, h2⟩
  · rw [analyzeStep_phase]
    rcases update_phase_cases s inp.now with h1 | ⟨h1, h2⟩
    · rw [h1]; exact Or.inl rfl
    · exact Or.inr ⟨h1, h2⟩

/-- Once a session is in normal phase, every cycle keeps it there. -/
theorem cycleStep_normal_absorb (s : SessionState) (inp : CycleInput)
    (h : s.phase = "normal") : (cycleStep s inp).2.phase = "normal" := by
  rcases cycleStep_phase_cases s inp with h1 | ⟨h1, h2⟩
  · rw [h1, h]
  · rw [h] at h1; exact absurd h1 (by decide)

/-- A normal-phase session sees no further phase changes. -/
theorem phaseChanges_normal (l : List CycleInput) :
    ∀ s : SessionState, s.phase = "normal" → phaseChanges s l = 0 := by
  induction l with
  | nil => intro s _; rfl
  | cons inp rest ih =>
    intro s h
    have habs := cycleStep_normal_absorb s inp h
    show (if (cycleStep s inp).2.phase ≠ s.phase then 1 else 0) +
      phaseChanges (cycleStep s inp).2 rest = 0
    rw [habs, h, ih _ habs]
    simp

/-- The phase changes at most once over any run of cycles. -/
theorem phaseChanges_le_one (l : List CycleInput) :
    ∀ s : SessionState, phaseChanges s l ≤ 1 := by
  induction l with
  | nil => intro s; exact Nat.zero_le 1
  | cons inp rest ih =>
    intro s
    show (if (cycleStep s inp).2.phase ≠ s.phase then 1 else 0) +
      phaseChanges (cycleStep s inp).2 rest ≤ 1
    by_cases hch : (cycleStep s inp).2.phase = s.phase
    · rw [if_neg (by simpa using hch)]
      simpa using ih (cycleStep s inp).2
    · rcases cycleStep_phase_cases s inp with h1 | ⟨h1, h2⟩
      · exact absurd h1 hch
      · rw [if_pos hch, phaseChanges_normal rest _ h2]

/-- A cycle that runs the hook evaluation starts in hook phase and
ends in normal phase. -/
theorem ranHookEval_spec (s : SessionState) (inp : CycleInput)
    (h : cycleRanHookEval s inp = true) :
    s.phase = "hook" ∧ (cycleStep s inp).2.phase = "normal" := by
  have hs1phase :
      (if s.recording_start_time = 0 then { s with recording_start_time := inp.now }
        else s).phase = s.phase := by
    split_ifs <;> rfl
  simp only [cycleRanHookEval, Bool.and_eq_true, Bool.not_eq_true', beq_iff_eq,
    beq_eq_false_iff_ne] at h
  obtain ⟨⟨hnot, hhook⟩, hev⟩ := h
  have hsphase : s.phase = "hook" := by rw [← hs1phase]; exact hhook
  refine ⟨hsphase, ?_⟩
  simp only [cycleStep]
  rw [analyzeStep_phase]
  rcases update_phase_cases
    (if s.recording_start_time = 0 then { s with recording_start_time := inp.now } else s)
    inp.now with h1 | ⟨h1, h2⟩
  · rw [h1] at hnot ⊢
    exact absurd hhook hnot
  · exact h2

/-- A normal-phase session never runs the hook evaluation. -/
theorem hookEvalCount_normal (l : List CycleInput) :
    ∀ s : SessionState, s.phase = "normal" → hookEvalCount s l = 0 := by
  induction l with
  | nil => intro s _; rfl
  | cons inp rest ih =>
    intro s h
    have habs := cycleStep_normal_absorb s inp h
    have hran : cycleRanHookEval s inp = false := by
      simp only [cycleRanHookEval]
      split_ifs with hst <;> simp [h]
    show (if cycleRanHookEval s inp then 1 else 0) +
      hookEvalCount (cycleStep s inp).2 rest = 0
    rw [hran, ih _ habs]
    simp

/-- The hook evaluation runs at most once over any run of cycles. -/
theorem hookEvalCount_le_one (l : List CycleInput) :
    ∀ s : SessionState, hookEvalCount s l ≤ 1 := by
  induction l with
  | nil => intro s; exact Nat.zero_le 1
  | cons inp rest ih =>
    intro s
    show (if cycleRanHookEval s inp then 1 else 0) +
      hookEvalCount (cycleStep s inp).2 rest ≤ 1
    by_cases hr : cycleRanHookEval s inp = true
    · rw [if_pos hr, hookEvalCount_normal rest _ (ranHookEval_spec s inp hr).2]
    · rw [if_neg (by simpa using hr)]
      simpa using ih (cycleStep s inp).2

/-- C7: over every sequence of cycles from a fresh session the phase
changes at most once and the hook evaluation runs at most once; a
cycle never moves a normal-phase session back to hook; every phase
change goes from hook to normal; and the hook evaluation runs exactly
at a hook-to-normal transition. -/
theorem C7_phase_invariants (inputs : List CycleInput) :
    phaseChanges SessionState.init inputs ≤ 1 ∧
    hookEvalCount SessionState.init inputs ≤ 1 ∧
    (∀ (s : SessionState) (inp : CycleInput), s.phase = "normal" →
      (cycleStep s inp).2.phase = "normal") ∧
    (∀ (s : SessionState) (inp : CycleInput), (cycleStep s inp).2.phase ≠ s.phase →
      s.phase = "hook" ∧ (cycleStep s inp).2.phase = "normal") ∧
    (∀ (s : SessionState) (inp : CycleInput), cycleRanHookEval s inp = true →
      s.phase = "hook" ∧ (cycleStep s inp).2.phase = "normal") := by
  refine ⟨phaseChanges_le_one inputs _, hookEvalCount_le_one inputs _,
    fun s inp h => cycleStep_normal_absorb s inp h, fun s inp h => ?_,
    fun s inp h => ranHookEval_spec s inp h⟩
  rcases cycleStep_phase_cases s inp with h1 | h1
  · exact absurd h1 h
  · exact h1

/-- C7 witness: the invariants instantiated on a concrete run; the
session c7Session transitions (and runs the hook evaluation) on the
cycle at time 10, and the normal-phase session c9Session stays
normal. -/
theorem C7_witness :
    phaseChanges SessionState.init [c7Input] ≤ 1 ∧
    hookEvalCount SessionState.init [c7Input] ≤ 1 ∧
    (cycleStep c9Session c9Input).2.phase = "normal" ∧
    (c7Session.phase = "hook" ∧ (cycleStep c7Session c7Input).2.phase = "normal") ∧
    (c7Session.phase = "hook" ∧ (cycleStep c7Session c7Input).2.phase = "normal") := by
  obtain ⟨h1, h2, h3, h4, h5⟩ := C7_phase_invariants [c7Input]
  have hup : (c7Session.update_phase 10).phase = "normal" := by
    unfold SessionState.update_phase
    rw [if_pos ⟨rfl, by norm_num [c7Session, SessionState.init]⟩,
      if_pos (by norm_num [c7Session, SessionState.init, HOOK_DURATION])]
  have hch : (cycleStep c7Session c7Input).2.phase = "normal" := by
    simp only [cycleStep]
    rw [if_neg (by norm_num [c7Session, SessionState.init]), analyzeStep_phase]
    exact hup
  refine ⟨h1, h2, h3 c9Session c9Input rfl, h4 c7Session c7Input ?_,
    h5 c7Session c7Input ?_⟩
  · rw [hch]; decide
  · simp only [cycleRanHookEval]
    rw [if_neg (by norm_num [c7Session, SessionState.init])]
    have hup2 : (c7Session.update_phase c7Input.now).phase = "normal" := hup
    simp only [hup2]
    decide

/-- C5 witness: the amended statement evaluated on a one-sample window
and on the concrete five-sample window. -/
theorem C5_witness :
    get_audio_metrics_volume_variance [(1 : ℚ)] = 0 ∧
    get_audio_metrics_volume_variance c5Window =
      pyRound (((c5Window.map fun s => s ^ 2).sum -
        c5Window.length * (c5Window.sum / c5Window.length) ^ 2) /
        ((c5Window.length : ℚ) - 1)) 6 :=
  ⟨(C5_variance_amended [1]).1 (by simp),
   (C5_variance_amended c5Window).2 (by norm_num [c5Window])⟩

/-! ### Problem-zone scan: membership characterization -/

/-- Splitting one element off a drop. -/
theorem drop_cons_inv {h : List CoachingEvent} {i : ℕ} {ev : CoachingEvent}
    {rest : List CoachingEvent} (hd : ev :: rest = h.drop i) :
    h[i]? = some ev ∧ rest = h.drop (i + 1) ∧ i < h.length := by
  have hlt : i < h.length := by
    by_contra hle
    rw [List.drop_eq_nil_of_le (le_of_not_lt hle)] at hd
    exact (List.cons_ne_nil _ _) hd
  refine ⟨?_, ?_, hlt⟩
  · have h0 := List.getElem?_drop h i 0
    rw [← hd] at h0
    simpa using h0.symm
  · have h1 := List.drop_drop 1 i h
    rw [← hd] at h1
    simpa using h1

/-- An in-range element with low score makes lowAt true. -/
theorem lowAt_true_of {h : List CoachingEvent} {j : ℕ} {ev : CoachingEvent}
    (hget : h[j]? = some ev) (hs : ev.score < 3/5) : lowAt h j = true := by
  simp [lowAt, hget, hs]

/-- An in-range element with non-low score makes lowAt false. -/
theorem lowAt_false_of {h : List CoachingEvent} {j : ℕ} {ev : CoachingEvent}
    (hget : h[j]? = some ev) (hs : ¬ev.score < 3/5) : lowAt h j = false := by
  simp [lowAt, hget, hs]

/-- Out-of-range indices are never low. -/
theorem lowAt_false_of_le {h : List CoachingEvent} {j : ℕ} (hj : h.length ≤ j) :
    lowAt h j = false := by
  simp [lowAt, List.getElem?_eq_none hj]

/-- A maximal low run starts at a low index. -/
theorem run_low_start {h : List CoachingEvent} {s e : ℕ} (hr : IsMaxLowRun h s e) :
    lowAt h s = true := by
  obtain ⟨hse, -, hint, -, -⟩ := hr
  exact hint s le_rfl hse

/-- Under the block invariant (all indices from s0 up to i low, index
i itself not low), a maximal run starting at or after s0 starts
exactly at s0 or strictly after i. -/
theorem run_start_cases {h : List CoachingEvent} {s0 i s e : ℕ}
    (hall : ∀ j, s0 ≤ j → j < i → lowAt h j = true)
    (hfi : lowAt h i = false) (hr : IsMaxLowRun h s e) (hb : s0 ≤ s) :
    s = s0 ∨ i + 1 ≤ s := by
  by_contra hcon
  push_neg at hcon
  obtain ⟨hne, hlt⟩ := hcon
  have hgt : s0 < s := lt_of_le_of_ne hb (Ne.symm hne)
  by_cases hsi : s = i
  · have hlows := run_low_start hr
    rw [hsi, hfi] at hlows
    exact Bool.false_ne_true hlows
  · have hlow : lowAt h (s - 1) = true := hall _ (by omega) (by omega)
    obtain ⟨-, -, -, hleft, -⟩ := hr
    rcases hleft with h0 | hfalse
    · omega
    · rw [hfalse] at hlow
      exact Bool.false_ne_true hlow

/-- Under the block invariant, a maximal run starting at s0 ends just
before i. -/
theorem run_end_eq {h : List CoachingEvent} {s0 i e : ℕ}
    (hall : ∀ j, s0 ≤ j → j < i → lowAt h j = true)
    (hfi : lowAt h i = false) (hs0i : s0 < i) (hr : IsMaxLowRun h s0 e) :
    e = i - 1 := by
  obtain ⟨hse, helen, hint, hleft, hright⟩ := hr
  have hei : e < i := by
    by_contra hge
    have hlow : lowAt h i = true := hint i (by omega) (by omega)
    rw [hfi] at hlow
    exact Bool.false_ne_true hlow
  by_contra hne
  have he1 : e + 1 < i := by omega
  have hlow : lowAt h (e + 1) = true := hall _ (by omega) he1
  rw [hright] at hlow
  exact Bool.false_ne_true hlow

/-- The open block of the invariant, closed by a non-low index i, is a
maximal low run from s0 to i - 1. -/
theorem block_is_run {h : List CoachingEvent} {s0 i : ℕ}
    (hall : ∀ j, s0 ≤ j → j < i → lowAt h j = true)
    (hleft : s0 = 0 ∨ lowAt h (s0 - 1) = false)
    (hfi : lowAt h i = false) (hs0i : s0 < i) (hi : i ≤ h.length) :
    IsMaxLowRun h s0 (i - 1) := by
  refine ⟨by omega, by omega, ?_, hleft, ?_⟩
  · intro j hj1 hj2
    exact hall j hj1 (by omega)
  · have he : i - 1 + 1 = i := by omega
    rw [he]
    exact hfi

/-- Membership characterization of the problem-zone scan: relative to
the loop invariant, the scan emits exactly the zones of the maximal
low runs of length at least two starting at or beyond the current
lower bound, after whatever is already accumulated. -/
theorem problemZonesLoop_mem (h : List CoachingEvent) :
    ∀ (rest : List CoachingEvent) (i : ℕ) (zs : Option ℕ) (acc : List ProblemZone),
      rest = h.drop i → i ≤ h.length → ZsInv h i zs →
      ∀ z : ProblemZone,
        (z ∈ problemZonesLoop h rest i zs acc ↔
          z ∈ acc ∨ ∃ s e, IsMaxLowRun h s e ∧ 2 ≤ e + 1 - s ∧ zsBound i zs ≤ s ∧
            z = mkZone h s (e + 1)) := by
  intro rest
  induction rest with
  | nil =>
    intro i zs acc hrest hi hinv z
    have hlen : h.length ≤ i := List.drop_eq_nil_iff.mp hrest.symm
    rcases zs with _ | s0
    · simp only [problemZonesLoop, zsBound]
      constructor
      · exact Or.inl
      · rintro (hz | ⟨s, e, hr, h2, hbound, hz⟩)
        · exact hz
        · exfalso
          obtain ⟨hse, helen, -, -, -⟩ := hr
          omega
    · obtain ⟨hs0i, hall, hleft⟩ := hinv
      have hfi : lowAt h i = false := lowAt_false_of_le (by omega)
      have hieq : i = h.length := by omega
      have hrun : IsMaxLowRun h s0 (i - 1) := block_is_run hall hleft hfi hs0i hi
      simp only [problemZonesLoop, zsBound]
      by_cases hge : 2 ≤ i - s0
      · rw [if_pos hge]
        rw [List.mem_append, List.mem_singleton]
        constructor
        · rintro (hz | hz)
          · exact Or.inl hz
          · refine Or.inr ⟨s0, i - 1, hrun, by omega, le_refl _, ?_⟩
            rw [hz]
            congr 1
            omega
        · rintro (hz | ⟨s, e, hr, h2, hbound, hz⟩)
          · exact Or.inl hz
          · rcases run_start_cases hall hfi hr hbound with hseq | hgt
            · subst hseq
              have he := run_end_eq hall hfi hs0i hr
              subst he
              refine Or.inr ?_
              rw [hz]
              congr 1
              omega
            · exfalso
              obtain ⟨hse, helen, -, -, -⟩ := hr
              omega
      · rw [if_neg hge]
        constructor
        · exact Or.inl
        · rintro (hz | ⟨s, e, hr, h2, hbound, hz⟩)
          · exact hz
          · exfalso
            rcases run_start_cases hall hfi hr hbound with hseq | hgt
            · subst hseq
              have he := run_end_eq hall hfi hs0i hr
              omega
            · obtain ⟨hse, helen, -, -, -⟩ := hr
              omega
  | cons ev rest ih =>
    intro i zs acc hrest hi hinv z
    obtain ⟨hget, hdrop, hlt⟩ := drop_cons_inv hrest
    rcases zs with _ | s0
    · by_cases hlow : ev.score < 3/5
      · have hlowi : lowAt h i = true := lowAt_true_of hget hlow
        have hinv2 : ZsInv h (i + 1) (some i) := by
          refine ⟨by omega, ?_, hinv⟩
          intro j hj1 hj2
          have hj : j = i := by omega
          rw [hj]
          exact hlowi
        simp only [problemZonesLoop, if_pos hlow, Option.getD_none]
        rw [ih (i + 1) (some i) acc hdrop (by omega) hinv2 z]
        simp only [zsBound]
      · have hfi : lowAt h i = false := lowAt_false_of hget hlow
        have hinv2 : ZsInv h (i + 1) none := Or.inr (by simpa using hfi)
        simp only [problemZonesLoop, if_neg hlow]
        rw [ih (i + 1) none acc hdrop (by omega) hinv2 z]
        simp only [zsBound]
        constructor
        · rintro (hz | ⟨s, e, hr, h2, hb, hz⟩)
          · exact Or.inl hz
          · exact Or.inr ⟨s, e, hr, h2, by omega, hz⟩
        · rintro (hz | ⟨s, e, hr, h2, hb, hz⟩)
          · exact Or.inl hz
          · refine Or.inr ⟨s, e, hr, h2, ?_, hz⟩
            have hlows := run_low_start hr
            have hsi : s ≠ i := by
              intro hsi
              rw [hsi, hfi] at hlows
              exact Bool.false_ne_true hlows
            omega
    · obtain ⟨hs0i, hall, hleft⟩ := hinv
      by_cases hlow : ev.score < 3/5
      · have hlowi : lowAt h i = true := lowAt_true_of hget hlow
        have hinv2 : ZsInv h (i + 1) (some s0) := by
          refine ⟨by omega, ?_, hleft⟩
          intro j hj1 hj2
          by_cases hji : j < i
          · exact hall j hj1 hji
          · have hj : j = i := by omega
            rw [hj]
            exact hlowi
        simp only [problemZonesLoop, if_pos hlow, Option.getD_some]
        rw [ih (i + 1) (some s0) acc hdrop (by omega) hinv2 z]
        simp only [zsBound]
      · have hfi : lowAt h i = false := lowAt_false_of hget hlow
        have hrun : IsMaxLowRun h s0 (i - 1) :=
          block_is_run hall hleft hfi hs0i (by omega)
        have hinv2 : ZsInv h (i + 1) none := Or.inr (by simpa using hfi)
        simp only [problemZonesLoop, if_neg hlow]
        by_cases hge : 2 ≤ i - s0
        · rw [if_pos hge]
          rw [ih (i + 1) none (acc ++ [mkZone h s0 i]) hdrop (by omega) hinv2 z]
          simp only [zsBound]
          rw [List.mem_append, List.mem_singleton]
          constructor
          · rintro ((hz | hz) | ⟨s, e, hr, h2, hb, hz⟩)
            · exact Or.inl hz
            · refine Or.inr ⟨s0, i - 1, hrun, by omega, le_refl _, ?_⟩
              rw [hz]
              congr 1
              omega
            · exact Or.inr ⟨s, e, hr, h2, by omega, hz⟩
          · rintro (hz | ⟨s, e, hr, h2, hb, hz⟩)
            · exact Or.inl (Or.inl hz)
            · rcases run_start_cases hall hfi hr hb with hseq | hgt
              · subst hseq
                have he := run_end_eq hall hfi hs0i hr
                subst he
                refine Or.inl (Or.inr ?_)
                rw [hz]
                congr 1
                omega
              · exact Or.inr ⟨s, e, hr, h2, hgt, hz⟩
        · rw [if_neg hge]
          rw [ih (i + 1) none acc hdrop (by omega) hinv2 z]
          simp only [zsBound]
          constructor
          · rintro (hz | ⟨s, e, hr, h2, hb, hz⟩)
            · exact Or.inl hz
            · exact Or.inr ⟨s, e, hr, h2, by omega, hz⟩
          · rintro (hz | ⟨s, e, hr, h2, hb, hz⟩)
            · exact Or.inl hz
            · rcases run_start_cases hall hfi hr hb with hseq | hgt
              · exfalso
                subst hseq
                have he := run_end_eq hall hfi hs0i hr
                omega
              · exact Or.inr ⟨s, e, hr, h2, hgt, hz⟩

/-- C3 fails as stated: on the spec example timeline the two problem
zones have average scores 0.4 and 0.15; the first average is 0.4, not
approximately 0.367 (the gap to the claimed value is 0.033). -/
theorem C3_counterexample :
    (problem_zones c3History).map (fun z => z.avg_score) = [2/5, 3/20] ∧
    (2/5 : ℚ) ≠ 367/1000 ∧ (2/5 : ℚ) - 367/1000 = 33/1000 := by
  refine ⟨?_, by norm_num, by norm_num⟩
  norm_num [problem_zones, problemZonesLoop, c3History, mkEv, mkZone,
    pyRound, roundHalfEven]

/-- C3 amended: the report scan emits exactly the zones of the maximal
contiguous runs of events with score strictly below 0.60 and length at
least two, each zone recording its 1-based frame bounds, length,
rounded average score and ordered event kinds; on the spec example
timeline of scores 0.9 0.9 0.5 0.4 0.3 0.9 0.2 0.1 0.9 0.9 this gives
exactly the zones over frames 3 to 5 (average 0.4) and 7 to 8 (average
0.15), and an isolated single low score yields no zone. -/
theorem C3_problem_zones_amended :
    (∀ (h : List CoachingEvent) (z : ProblemZone),
      z ∈ problem_zones h ↔
        ∃ s e, IsMaxLowRun h s e ∧ 2 ≤ e + 1 - s ∧ z = mkZone h s (e + 1)) ∧
    problem_zones c3History =
      [{ start_frame := 3, end_frame := 5, length := 3, avg_score := 2/5,
         events := ["VIBE_CHECK", "RAISE_ENERGY", "SPEED_UP"] },
       { start_frame := 7, end_frame := 8, length := 2, avg_score := 3/20,
         events := ["VISUAL_RESET", "VIBE_CHECK"] }] ∧
    problem_zones c3Isolated = [] := by
  refine ⟨?_, ?_, ?_⟩
  · intro h z
    have hm := problemZonesLoop_mem h h 0 none [] (by simp) (Nat.zero_le _) (Or.inl rfl) z
    unfold problem_zones
    rw [hm]
    simp [zsBound]
  · norm_num [problem_zones, problemZonesLoop, c3History, mkEv, mkZone,
      pyRound, roundHalfEven, EventType.value]
  · norm_num [problem_zones, problemZonesLoop, c3Isolated, mkEv]

end NeuroSync
